import Mathlib

/-!
Formal model of the sutora worker-orchestration core: a shallow embedding of
the job scheduler (`scheduleNextJob`, job cancellation), the worker lifecycle
manager (`launchInstance`, `isInstanceReady`, `stopInstance`, log accessors),
the CLI argument builder (`buildArgs`), the port allocator
(`findAvailablePort`), the Python runtime locator (`getPythonPath`), and the
resource-metric sampler (`recordMetrics`), together with theorems checking
the natural-language specification against this embedding.

External effects (the database, HTTP calls, process spawning, socket binds,
disk scans) are modelled as explicit state values and oracle functions, so
every definition is executable on concrete inputs.
-/

namespace Sutora

/-- Job queue statuses from the `job_queue` table. -/
inductive JobStatus
  | pending
  | running
  | completed
  | failed
  | cancelled
deriving DecidableEq

/-- Worker (ComfyUI instance) statuses from the `comfy_instances` table. -/
inductive WStatus
  | stopped
  | starting
  | running
  | error
deriving DecidableEq

/-- A row of the `job_queue` table (fields read or written by the scheduler;
`updated_at` is write-only in the modelled code and is omitted). -/
structure Job where
  id : String
  workflowData : String
  priority : Int
  createdAt : Int
  status : JobStatus
  instanceId : Option String
  output : Option String
  error : Option String
deriving DecidableEq

/-- A row of the `comfy_instances` table as read by the scheduler. -/
structure WorkerRow where
  id : String
  port : Nat
  status : WStatus
deriving DecidableEq

/-! ### CLI argument builder (`ComfyUICli.buildArgs`, comfyuiCli.ts 290-328) -/

/-- A value stored in a `ComfyUIOptions` entry. An unset (undefined) option is
simply absent from the entry list; numbers are represented by their
`toString` image, exactly as the builder stringifies them. -/
inductive OptVal
  | vBool (b : Bool)
  | vStr (s : String)
  | vArr (items : List String)
deriving DecidableEq

/-- One step of the camelCase → kebab-case conversion: the global regex
`([a-z0-9])([A-Z])` → `$1-$2` inserts a dash between each lowercase/digit
character and a following uppercase character (matches never overlap since
an uppercase character can never start a new match). -/
def kebabStep : List Char → List Char
  | [] => []
  | [c] => [c]
  | c1 :: c2 :: rest =>
    if (c1.isLower || c1.isDigit) && c2.isUpper then
      c1 :: '-' :: kebabStep (c2 :: rest)
    else
      c1 :: kebabStep (c2 :: rest)

/-- `toKebabCase` from comfyuiCli.ts: insert dashes, then lowercase. -/
def toKebabCase (s : String) : String :=
  String.mk ((kebabStep s.data).map Char.toLower)

/-- The loop body of `buildArgs` for a single option entry: internal options
(`cudaDevice`, `useMps`) are skipped, `false` emits nothing, `true` emits the
flag alone, the `fast` array emits one flag followed by all values, other
arrays emit the flag once per element, and any other value emits the flag
followed by the stringified value. -/
def emitArg (entry : String × OptVal) : List String :=
  if entry.1 = "cudaDevice" ∨ entry.1 = "useMps" then []
  else
    match entry.2 with
    | OptVal.vBool false => []
    | OptVal.vBool true => ["--" ++ toKebabCase entry.1]
    | OptVal.vArr items =>
      let kebabKey := toKebabCase entry.1
      if kebabKey = "fast" then
        if items.isEmpty then ["--" ++ kebabKey]
        else ("--" ++ kebabKey) :: items
      else (items.map (fun item => ["--" ++ kebabKey, item])).flatten
    | OptVal.vStr v => ["--" ++ toKebabCase entry.1, v]

/-- `buildArgs`: iterate the option entries in order, appending each entry's
emitted flags. -/
def buildArgs : List (String × OptVal) → List String
  | [] => []
  | entry :: rest => emitArg entry ++ buildArgs rest

/-! ### Job scheduler (`scheduleNextJob` and the cancel route, jobs/index.ts) -/

/-- The order of `ORDER BY priority DESC, created_at ASC`: job `a` sorts
strictly before job `b`. -/
def jobBetter (a b : Job) : Prop :=
  b.priority < a.priority ∨ (a.priority = b.priority ∧ a.createdAt < b.createdAt)

instance (a b : Job) : Decidable (jobBetter a b) := by
  unfold jobBetter; infer_instance

/-- Fold computing the row that `ORDER BY priority DESC, created_at ASC
LIMIT 1` returns: the first-encountered minimal element of the order. -/
def pickBest (acc : Option Job) (js : List Job) : Option Job :=
  js.foldl
    (fun acc j =>
      match acc with
      | none => some j
      | some b => if jobBetter j b then some j else some b)
    acc

/-- The query at jobs/index.ts 143-148: the top `pending` job under
`priority DESC, created_at ASC`. -/
def selectTopPending (jobs : List Job) : Option Job :=
  pickBest none (jobs.filter (fun j => j.status == JobStatus.pending))

/-- `db.update(jobQueue).set(...).where(eq(jobQueue.id, id))`: apply `f` to
every row whose `id` matches. -/
def updateJob (jobs : List Job) (id : String) (f : Job → Job) : List Job :=
  jobs.map (fun j => if j.id == id then f j else j)

/-- Running instances that have no job in status `running` bound to them
(jobs/index.ts 118-135). -/
def availableInstances (instances : List WorkerRow) (jobs : List Job) : List WorkerRow :=
  let runningInstances := instances.filter (fun i => i.status == WStatus.running)
  let busyIds := (jobs.filter (fun j => j.status == JobStatus.running)).map (fun j => j.instanceId)
  runningInstances.filter (fun i => !(busyIds.contains (some i.id)))

/-- `scheduleNextJob` (jobs/index.ts 116-198). The HTTP POST of the workflow
to the worker's `/prompt` endpoint is the oracle `submit port workflowData`:
`Except.ok response` for a 2xx response, `Except.error text` for a thrown
error (including JSON-parse failures and non-2xx responses). On success the
code only logs the response's prompt id; on error it marks the job `failed`
and recurses. `fuel` bounds the recursion depth (each recursive call follows
a pending job turning `failed`, so `jobs.length` fuel always suffices). -/
def scheduleNextJob (instances : List WorkerRow) (submit : Nat → String → Except String String) :
    Nat → List Job → List Job
  | 0, jobs => jobs
  | fuel + 1, jobs =>
    let runningInstances := instances.filter (fun i => i.status == WStatus.running)
    if runningInstances.isEmpty then jobs
    else
      match availableInstances instances jobs with
      | [] => jobs
      | inst :: _ =>
        match selectTopPending jobs with
        | none => jobs
        | some job =>
          let jobs1 := updateJob jobs job.id
            (fun j => { j with status := JobStatus.running, instanceId := some inst.id })
          match submit inst.port job.workflowData with
          | Except.ok _resp => jobs1
          | Except.error e =>
            let jobs2 := updateJob jobs1 job.id
              (fun j => { j with status := JobStatus.failed, error := some e })
            scheduleNextJob instances submit fuel jobs2

/-- Repeated dispatch: the sequence of jobs selected by successive scheduler
passes, each selected job leaving the pending pool. -/
def drainAux (avail : Nat) (jobs : List Job) : List Job :=
  match avail with
  | 0 => []
  | fuel + 1 =>
    match selectTopPending jobs with
    | none => []
    | some j => j :: drainAux fuel (jobs.erase j)

/-- Drain order of a job list under repeated top-pending selection. -/
def drainOrder (jobs : List Job) : List Job :=
  drainAux jobs.length jobs

/-- The cancel route (jobs/index.ts 66-113). Returns the updated job table,
the row returned by the guarded `UPDATE ... RETURNING` (post-update values),
and whether an interrupt POST was issued to the bound worker. The code
guards the interrupt on `result[0].status === 'running'`, where `result[0]`
is the row as returned by `RETURNING`, i.e. after the update. -/
def cancelJob (jobs : List Job) (instances : List WorkerRow) (jobId : String) :
    List Job × Option Job × Bool :=
  let canCancel := fun (j : Job) =>
    j.id == jobId && (j.status == JobStatus.pending || j.status == JobStatus.running)
  let jobsAfter := jobs.map (fun j => if canCancel j then { j with status := JobStatus.cancelled } else j)
  let returned := (jobs.filter canCancel).map (fun j => { j with status := JobStatus.cancelled })
  match returned.head? with
  | none => (jobsAfter, none, false)
  | some r =>
    let interrupted :=
      r.status == JobStatus.running &&
      (match r.instanceId with
       | some iid =>
         (match instances.find? (fun i => i.id == iid) with
          | some inst => inst.port != 0
          | none => false)
       | none => false)
    (jobsAfter, some r, interrupted)

/-! ### Worker lifecycle manager (`ComfyUICli`, comfyuiCli.ts) -/

/-- The in-memory instance record (`ComfyInstance`): the process handle is
represented by the captured `pid`. -/
structure RInstance where
  id : String
  port : Nat
  host : String
  gpuIndices : String
  status : WStatus
  pid : Option Nat
  logs : List String
  errors : List String
  warnings : List String
  lastError : Option String
deriving DecidableEq

/-- The option fields that `launchInstance` itself inspects. -/
structure LaunchOptions where
  listen : Option String
  port : Option Nat
  cudaDevice : Option Int
  useMps : Bool
deriving DecidableEq

/-- `launchInstance` (comfyuiCli.ts 377-526) on the successful-spawn path,
given the pid the spawn produced and whether the host is macOS: the record is
created with `status = starting`, the pid is captured, GPU indices are
attributed (`cudaDevice` index, else `mps` on macOS with `useMps`, else
`cpu`), the instance is stored, and then — still before returning — the
status is overwritten to `running` (line 519). -/
def launchInstance (instanceId : String) (opts : LaunchOptions) (pid : Nat)
    (macOS : Bool) : RInstance :=
  let host := opts.listen.getD "127.0.0.1"
  let port := match opts.port with
    | some p => if p = 0 then 8188 else p
    | none => 8188
  let inst : RInstance :=
    { id := instanceId, port := port, host := host, gpuIndices := "",
      status := WStatus.starting, pid := none, logs := [], errors := [],
      warnings := [], lastError := none }
  let inst := { inst with pid := some pid }
  let inst :=
    { inst with
      gpuIndices :=
        match opts.cudaDevice with
        | some d => toString d
        | none => if macOS && opts.useMps then "mps" else "cpu" }
  { inst with status := WStatus.running }

/-- `s.includes(pat)` on JavaScript strings: `pat` occurs as a contiguous
substring of `s`. -/
def strContainsSub (s pat : String) : Bool :=
  s.data.tails.any (fun t => pat.data.isPrefixOf t)

/-- The fatal-log scan of `isInstanceReady` (comfyuiCli.ts 810-816). -/
def hasFatalErrors (errors : List String) : Bool :=
  errors.any (fun err =>
    strContainsSub err "Error: Cannot find module" ||
    strContainsSub err "ModuleNotFoundError" ||
    strContainsSub err "Fatal error" ||
    strContainsSub err "Could not find model")

/-- Oracles for the readiness poll: whether the child process is alive and
whether the HTTP probe succeeds, both indexed by the attempt counter. -/
structure ReadyEnv where
  processRunning : Nat → Bool
  apiReady : Nat → Bool

/-- `maxAttempts || Math.ceil(startupTimeout / checkInterval)`: a given
nonzero attempt count wins, otherwise (absent, or the falsy 0) the ceiling
of the timeout split into check intervals. -/
def effAttempts (maxAttempts : Option Nat) (startupTimeout checkInterval : Nat) : Nat :=
  match maxAttempts with
  | some n => if n ≠ 0 then n else (startupTimeout + checkInterval - 1) / checkInterval
  | none => (startupTimeout + checkInterval - 1) / checkInterval

/-- The string form of a worker status as returned by the readiness poll. -/
def statusStr : WStatus → String
  | WStatus.stopped => "stopped"
  | WStatus.starting => "starting"
  | WStatus.running => "running"
  | WStatus.error => "error"

/-- The attempt loop of `isInstanceReady` (comfyuiCli.ts 785-839), with
`remaining` iterations left and `attempt` iterations already taken. Each
iteration: a dead process (when a pid is known) is fatal; a successful API
probe returns `{true, running}` (without touching the stored status); a
fatal log substring sets the status to `error`; otherwise sleep and retry.
After the loop: `{false, starting}` if the process is still alive,
`{false, error}` otherwise. -/
def readyLoop (env : ReadyEnv) (inst : RInstance) : Nat → Nat → (Bool × String) × RInstance
  | attempt, 0 =>
    if inst.pid.isSome && env.processRunning attempt then
      ((false, "starting"), inst)
    else
      ((false, "error"),
        { inst with status := WStatus.error,
                    lastError := some "Process exited or API never became ready" })
  | attempt, remaining + 1 =>
    if inst.pid.isSome && !(env.processRunning attempt) then
      ((false, "error"),
        { inst with status := WStatus.error, lastError := some "Process not running" })
    else if env.apiReady attempt then
      ((true, "running"), inst)
    else if hasFatalErrors inst.errors then
      ((false, "error"), { inst with status := WStatus.error })
    else
      readyLoop env inst (attempt + 1) remaining

/-- `isInstanceReady` (comfyuiCli.ts 763-840): effective attempts, missing
instance → `not_found`, stopped/error instance short-circuits, else the
attempt loop. Returns the result together with the (possibly updated)
instance record. -/
def isInstanceReadyModel (inst? : Option RInstance) (maxAttempts : Option Nat)
    (startupTimeout checkInterval : Nat) (env : ReadyEnv) :
    (Bool × String) × Option RInstance :=
  let attempts := effAttempts maxAttempts startupTimeout checkInterval
  match inst? with
  | none => ((false, "not_found"), none)
  | some inst =>
    if inst.status = WStatus.stopped ∨ inst.status = WStatus.error then
      ((false, statusStr inst.status), some inst)
    else
      match readyLoop env inst 0 attempts with
      | (res, inst2) => (res, some inst2)

/-- The in-memory instance map, as an association list. -/
def instancesFind (m : List (String × RInstance)) (id : String) : Option RInstance :=
  (m.find? (fun e => e.1 == id)).map (fun e => e.2)

/-- `getInstanceErrors` (comfyuiCli.ts 859-865). -/
def getInstanceErrors (m : List (String × RInstance)) (id : String) : List String :=
  match instancesFind m id with
  | none => []
  | some inst => inst.errors

/-- `getInstanceWarnings` (comfyuiCli.ts 870-876). -/
def getInstanceWarnings (m : List (String × RInstance)) (id : String) : List String :=
  match instancesFind m id with
  | none => []
  | some inst => inst.warnings

/-- `getInstanceLogs` (comfyuiCli.ts 881-887): `logs.slice(-limit)` keeps the
last `limit` lines (and, JavaScript `slice(-0)` being `slice(0)`, the whole
buffer when `limit = 0`). -/
def getInstanceLogs (m : List (String × RInstance)) (id : String) (limit : Nat) : List String :=
  match instancesFind m id with
  | none => []
  | some inst =>
    if limit = 0 then inst.logs
    else inst.logs.drop (inst.logs.length - limit)

/-- `isInstanceReady` looked up through the instance map. -/
def isInstanceReadyById (m : List (String × RInstance)) (id : String)
    (maxAttempts : Option Nat) (startupTimeout checkInterval : Nat) (env : ReadyEnv) :
    (Bool × String) × Option RInstance :=
  isInstanceReadyModel (instancesFind m id) maxAttempts startupTimeout checkInterval env

/-- Oracles for `stopInstance`: whether `kill -TERM` throws, and whether the
process is still alive at each of the ten 500 ms polls that follow it. -/
structure KillEnv where
  termThrows : Bool
  aliveAfterTerm : Nat → Bool

/-- `stopInstance` (comfyuiCli.ts 551-625), Unix path: no tracked instance or
no pid → `false`; otherwise SIGTERM, up to ten alive-polls, then SIGKILL as
a fallback (so `killed` ends `true` unless the TERM signal itself threw),
and the record is marked `stopped`. -/
def stopInstance (inst? : Option RInstance) (env : KillEnv) : Bool × Option RInstance :=
  match inst? with
  | none => (false, none)
  | some inst =>
    match inst.pid with
    | none => (false, some inst)
    | some _pid =>
      let killed :=
        if env.termThrows then false
        else if (List.range 10).any (fun i => !(env.aliveAfterTerm i)) then true
        else true
      (killed, some { inst with status := WStatus.stopped })

/-- `stopInstance` looked up through the instance map. -/
def stopInstanceById (m : List (String × RInstance)) (id : String) (env : KillEnv) :
    Bool × Option RInstance :=
  stopInstance (instancesFind m id) env

/-! ### Port allocator (`findAvailablePort`, portUtils.ts) -/

/-- The probe loop `while (!(await isPortAvailable(port))) port++` against an
availability oracle, with explicit fuel standing for the number of loop
iterations still allowed (the source loop is unbounded; the theorems show
enough fuel always exists when some port at or above the base binds). -/
def findAvailAux (avail : Nat → Bool) : Nat → Nat → Option Nat
  | 0, _ => none
  | fuel + 1, port => if avail port then some port else findAvailAux avail fuel (port + 1)

/-! ### Resource-metric sampler (`recordMetrics`, monitoring.ts 94-135) -/

/-- One device row parsed from the NVIDIA query output. Numeric sample
values are carried opaquely as integers. -/
structure GPUMetric where
  index : Int
  memoryUsed : Int
  memoryTotal : Int
  utilization : Int
deriving DecidableEq

/-- Host CPU/RAM metrics for one tick. -/
structure SysMetrics where
  cpuUtilization : Int
  ramUsed : Int
  ramTotal : Int
deriving DecidableEq

/-- A row of `comfy_instances` as read by the sampler. -/
structure InstanceRow where
  id : String
  status : WStatus
  gpuIndices : String
deriving DecidableEq

/-- A row appended to `resource_metrics`. -/
structure MetricRow where
  instanceId : String
  gpuIndex : Int
  vramUsed : Int
  vramTotal : Int
  gpuUtilization : Int
  ramUsed : Int
  cpuUtilization : Int
deriving DecidableEq

/-- JavaScript `String.prototype.split(',')`. -/
def splitCommaAux : List Char → List Char → List String
  | [], acc => [String.mk acc.reverse]
  | c :: cs, acc =>
    if c = ',' then String.mk acc.reverse :: splitCommaAux cs []
    else splitCommaAux cs (c :: acc)

/-- Split a string on commas, JavaScript style (`"".split(',') = [""]`). -/
def splitComma (s : String) : List String :=
  splitCommaAux s.data []

/-- JavaScript `String.prototype.trim()`: strip whitespace from both ends. -/
def trimStr (s : String) : String :=
  String.mk (((s.data.dropWhile Char.isWhitespace).reverse.dropWhile Char.isWhitespace).reverse)

/-- JavaScript `parseInt`: skip leading whitespace, read an optional sign and
then leading decimal digits; `none` models `NaN` (no digits at all). -/
def parseIntJS (s : String) : Option Int :=
  let cs := s.data.dropWhile Char.isWhitespace
  let signed : Bool × List Char :=
    match cs with
    | '-' :: rest => (true, rest)
    | '+' :: rest => (false, rest)
    | _ => (false, cs)
  let digits := signed.2.takeWhile Char.isDigit
  if digits.isEmpty then none
  else
    let n : Nat := digits.foldl (fun acc c => acc * 10 + (c.toNat - '0'.toNat)) 0
    some (if signed.1 then -(n : Int) else (n : Int))

/-- `recordMetrics` (monitoring.ts 94-135): for each `running` instance,
parse its comma-separated `gpuIndices` with `parseInt` (non-numeric tokens
become `NaN` and match no device), and for each parsed index that matches a
device in the GPU inventory append one metric row carrying that device's
numbers and the tick's host CPU/RAM. Returns the appended rows. -/
def recordMetricsRows (instances : List InstanceRow) (gpuMetrics : List GPUMetric)
    (sys : SysMetrics) : List MetricRow :=
  let running := instances.filter (fun i => i.status == WStatus.running)
  if running.isEmpty then []
  else
    running.flatMap (fun inst =>
      let indices := (splitComma inst.gpuIndices).map (fun t => parseIntJS (trimStr t))
      indices.flatMap (fun idx? =>
        match idx? with
        | none => []
        | some gpuIndex =>
          match gpuMetrics.find? (fun m => m.index == gpuIndex) with
          | some gm =>
            [{ instanceId := inst.id, gpuIndex := gpuIndex,
               vramUsed := gm.memoryUsed, vramTotal := gm.memoryTotal,
               gpuUtilization := gm.utilization,
               ramUsed := sys.ramUsed, cpuUtilization := sys.cpuUtilization }]
          | none => []))

/-! ### Python runtime locator (`getPythonPath`, pythonUtils.ts 1279-1341) -/

/-- The locator's environment: the validator verdict per candidate path, the
result of the venv/conda disk scan (`findPythonInVenv`), and the system
Python fallback. -/
structure LocEnv where
  validate : String → Bool
  venvScan : Option String
  systemPython : String

/-- The locator's mutable state: the process-lifetime in-memory cache, the
persisted `PYTHON_PATH` config row, and instrumentation counters for disk
scans and config-store reads. -/
structure LocSt where
  cache : List (String × String)
  dbPath : Option String
  scanCount : Nat
  dbReadCount : Nat
deriving DecidableEq

/-- Lookup in the in-memory Python path cache. -/
def lookupCache (c : List (String × String)) (k : String) : Option String :=
  (c.find? (fun e => e.1 == k)).map (fun e => e.2)

/-- `getPythonPath` (pythonUtils.ts 1279-1341): return the cached path if the
install path was resolved before; otherwise consult the persisted
`PYTHON_PATH` (kept only if nonempty and valid), otherwise run the disk scan
(counting it), persisting and caching a valid scan result; otherwise fall
back to the system Python. Every return path populates the cache. -/
def getPythonPathM (env : LocEnv) (st : LocSt) (p : String) : String × LocSt :=
  match lookupCache st.cache p with
  | some cached => (cached, st)
  | none =>
    let st1 := { st with dbReadCount := st.dbReadCount + 1 }
    let dbHit : Option String :=
      match st1.dbPath with
      | some v => if v ≠ "" ∧ env.validate v then some v else none
      | none => none
    match dbHit with
    | some v => (v, { st1 with cache := (p, v) :: st1.cache })
    | none =>
      let st2 := { st1 with scanCount := st1.scanCount + 1 }
      match env.venvScan with
      | some vp =>
        if env.validate vp then
          (vp, { st2 with cache := (p, vp) :: st2.cache, dbPath := some vp })
        else
          (env.systemPython, { st2 with cache := (p, env.systemPython) :: st2.cache })
      | none =>
        (env.systemPython, { st2 with cache := (p, env.systemPython) :: st2.cache })

/-! ### Concrete fixtures (the E2E-1 queue-drain scenario) -/

/-- E2E-1 fixture: job J1, priority 0, enqueued first. -/
def e2eJob1 : Job :=
  { id := "J1", workflowData := "\x7b\x7d", priority := 0, createdAt := 1,
    status := JobStatus.pending, instanceId := none, output := none, error := none }

/-- E2E-1 fixture: job J2, priority 10, enqueued second. -/
def e2eJob2 : Job :=
  { id := "J2", workflowData := "\x7b\x7d", priority := 10, createdAt := 2,
    status := JobStatus.pending, instanceId := none, output := none, error := none }

/-- Fixture: worker W, running on port 8190 (E2E-1). -/
def e2eWorker : WorkerRow :=
  { id := "W", port := 8190, status := WStatus.running }

/-- Fixture: a running job bound to worker W (E2E-3). -/
def e2eRunningJob : Job :=
  { id := "J9", workflowData := "\x7b\x7d", priority := 0, createdAt := 3,
    status := JobStatus.running, instanceId := some "W", output := none, error := none }

/-- Fixture: default launch options. -/
def launchOptsFix : LaunchOptions :=
  { listen := none, port := some 8188, cudaDevice := none, useMps := false }

/-- Fixture: a freshly spawned instance record awaiting readiness. -/
def readyFixInst : RInstance :=
  { id := "w1", port := 8188, host := "127.0.0.1", gpuIndices := "cpu",
    status := WStatus.starting, pid := some 4242, logs := [], errors := [],
    warnings := [], lastError := none }

/-- Fixture: the E2E-6 worker with device selector `0,1`. -/
def metricFixInst : InstanceRow :=
  { id := "W", status := WStatus.running, gpuIndices := "0,1" }

/-- Fixture: GPU device 0 of the stubbed inventory. -/
def gpuFix0 : GPUMetric :=
  { index := 0, memoryUsed := 100, memoryTotal := 8192, utilization := 5 }

/-- Fixture: GPU device 1 of the stubbed inventory. -/
def gpuFix1 : GPUMetric :=
  { index := 1, memoryUsed := 200, memoryTotal := 8192, utilization := 7 }

/-- Fixture: host metrics for one tick. -/
def sysFix : SysMetrics :=
  { cpuUtilization := 12, ramUsed := 4096, ramTotal := 16384 }

theorem buildArgs_append (xs ys : List (String × OptVal)) :
    buildArgs (xs ++ ys) = buildArgs xs ++ buildArgs ys := by
  induction xs with
  | nil => simp [buildArgs]
  | cons e rest ih => simp [buildArgs, ih]

/-! ### Lemmas about the scheduler ordering -/

theorem jobBetter_trans {a b c : Job} (h1 : jobBetter a b) (h2 : jobBetter b c) :
    jobBetter a c := by
  unfold jobBetter at *; omega

theorem jobBetter_shift {j b r : Job} (h1 : ¬ jobBetter j b) (h2 : jobBetter j r) :
    jobBetter b r := by
  unfold jobBetter at *; omega

theorem jobBetter_total_of_key_ne {a b : Job}
    (h : a.priority ≠ b.priority ∨ a.createdAt ≠ b.createdAt) :
    jobBetter a b ∨ jobBetter b a := by
  unfold jobBetter; omega

theorem pickBest_cons_none (j : Job) (rest : List Job) :
    pickBest none (j :: rest) = pickBest (some j) rest := rfl

theorem pickBest_cons_some (b j : Job) (rest : List Job) :
    pickBest (some b) (j :: rest) =
      pickBest (if jobBetter j b then some j else some b) rest := rfl

theorem pickBest_mem : ∀ (js : List Job) (acc : Option Job) (r : Job),
    pickBest acc js = some r → acc = some r ∨ r ∈ js := by
  intro js
  induction js with
  | nil => exact fun acc r h => Or.inl h
  | cons j rest ih =>
    intro acc r h
    cases acc with
    | none =>
      rw [pickBest_cons_none] at h
      rcases ih (some j) r h with h1 | h1
      · right
        obtain rfl : j = r := Option.some.inj h1
        exact List.mem_cons_self _ _
      · exact Or.inr (List.mem_cons_of_mem _ h1)
    | some b =>
      rw [pickBest_cons_some] at h
      by_cases hb : jobBetter j b
      · rw [if_pos hb] at h
        rcases ih (some j) r h with h1 | h1
        · right
          obtain rfl : j = r := Option.some.inj h1
          exact List.mem_cons_self _ _
        · exact Or.inr (List.mem_cons_of_mem _ h1)
      · rw [if_neg hb] at h
        rcases ih (some b) r h with h1 | h1
        · exact Or.inl h1
        · exact Or.inr (List.mem_cons_of_mem _ h1)

theorem pickBest_not_better : ∀ (js : List Job) (acc : Option Job) (r : Job),
    pickBest acc js = some r →
      (∀ x ∈ js, ¬ jobBetter x r) ∧ (∀ b, acc = some b → ¬ jobBetter b r) := by
  intro js
  induction js with
  | nil =>
    intro acc r h
    refine ⟨fun x hx => absurd hx (List.not_mem_nil x), fun b hb => ?_⟩
    rw [hb] at h
    obtain rfl : b = r := Option.some.inj h
    unfold jobBetter; omega
  | cons j rest ih =>
    intro acc r h
    cases acc with
    | none =>
      rw [pickBest_cons_none] at h
      obtain ⟨hrest, hacc⟩ := ih (some j) r h
      have hj : ¬ jobBetter j r := hacc j rfl
      refine ⟨fun x hx => ?_, fun b hb => by cases hb⟩
      rcases List.mem_cons.mp hx with rfl | hx
      · exact hj
      · exact hrest x hx
    | some b =>
      rw [pickBest_cons_some] at h
      by_cases hb : jobBetter j b
      · rw [if_pos hb] at h
        obtain ⟨hrest, hacc⟩ := ih (some j) r h
        have hj : ¬ jobBetter j r := hacc j rfl
        refine ⟨fun x hx => ?_, fun b0 hb0 => ?_⟩
        · rcases List.mem_cons.mp hx with rfl | hx
          · exact hj
          · exact hrest x hx
        · obtain rfl : b = b0 := Option.some.inj hb0
          intro hbr
          exact hj (jobBetter_trans hb hbr)
      · rw [if_neg hb] at h
        obtain ⟨hrest, hacc⟩ := ih (some b) r h
        have hbr : ¬ jobBetter b r := hacc b rfl
        refine ⟨fun x hx => ?_, fun b0 hb0 => ?_⟩
        · rcases List.mem_cons.mp hx with rfl | hx
          · intro hjr
            exact hbr (jobBetter_shift hb hjr)
          · exact hrest x hx
        · obtain rfl : b = b0 := Option.some.inj hb0
          exact hbr

theorem pickBest_isSome : ∀ (js : List Job) (b : Job), ∃ r, pickBest (some b) js = some r := by
  intro js
  induction js with
  | nil => exact fun b => ⟨b, rfl⟩
  | cons j rest ih =>
    intro b
    rw [pickBest_cons_some]
    by_cases hb : jobBetter j b
    · rw [if_pos hb]; exact ih j
    · rw [if_neg hb]; exact ih b

theorem selectTopPending_spec {jobs : List Job} {j : Job}
    (h : selectTopPending jobs = some j) :
    j ∈ jobs ∧ j.status = JobStatus.pending ∧
      ∀ k ∈ jobs, k.status = JobStatus.pending → ¬ jobBetter k j := by
  unfold selectTopPending at h
  have hmem := pickBest_mem _ _ _ h
  rcases hmem with h1 | h1
  · cases h1
  · have hf := List.mem_filter.mp h1
    have hstat : j.status = JobStatus.pending := by
      have := hf.2; simpa using this
    refine ⟨hf.1, hstat, fun k hk hkp => ?_⟩
    have hkf : k ∈ jobs.filter (fun x => x.status == JobStatus.pending) :=
      List.mem_filter.mpr ⟨hk, by simp [hkp]⟩
    exact (pickBest_not_better _ _ _ h).1 k hkf

theorem drainAux_sorted : ∀ (n : Nat) (jobs : List Job), jobs.length = n →
    (∀ j ∈ jobs, j.status = JobStatus.pending) →
    List.Pairwise (fun a b => a.priority ≠ b.priority ∨ a.createdAt ≠ b.createdAt) jobs →
    (drainAux n jobs).Perm jobs ∧ List.Pairwise jobBetter (drainAux n jobs) := by
  intro n
  induction n with
  | zero =>
    intro jobs hlen _ _
    have : jobs = [] := List.eq_nil_of_length_eq_zero hlen
    subst this
    exact ⟨List.Perm.refl _, List.Pairwise.nil⟩
  | succ n ih =>
    intro jobs hlen hall hdist
    obtain ⟨x, xs, rfl⟩ : ∃ x xs, jobs = x :: xs := by
      cases jobs with
      | nil => simp at hlen
      | cons x xs => exact ⟨x, xs, rfl⟩
    have hsel : ∃ j, selectTopPending (x :: xs) = some j := by
      unfold selectTopPending
      have hfe : (x :: xs).filter (fun j => j.status == JobStatus.pending) = x :: xs :=
        List.filter_eq_self.mpr (fun a ha => by simp [hall a ha])
      rw [hfe, pickBest_cons_none]
      exact pickBest_isSome xs x
    obtain ⟨j, hj⟩ := hsel
    obtain ⟨hjmem, -, hjmax⟩ := selectTopPending_spec hj
    have hstep : drainAux (n + 1) (x :: xs) = j :: drainAux n ((x :: xs).erase j) := by
      have h0 : drainAux (n + 1) (x :: xs) =
          match selectTopPending (x :: xs) with
          | none => []
          | some k => k :: drainAux n ((x :: xs).erase k) := rfl
      rw [h0, hj]
    have herlen : ((x :: xs).erase j).length = n := by
      rw [List.length_erase_of_mem hjmem, hlen]
      rfl
    have hersub : ((x :: xs).erase j).Sublist (x :: xs) := List.erase_sublist j (x :: xs)
    have herall : ∀ a ∈ (x :: xs).erase j, a.status = JobStatus.pending :=
      fun a ha => hall a (hersub.mem ha)
    have herdist := hdist.sublist hersub
    obtain ⟨ihperm, ihpair⟩ := ih ((x :: xs).erase j) herlen herall herdist
    have hnodup : (x :: xs).Nodup := by
      refine hdist.imp ?_
      intro a b hab heq
      rw [heq] at hab
      rcases hab with h | h <;> exact h rfl
    constructor
    · rw [hstep]
      exact (ihperm.cons j).trans (List.perm_cons_erase hjmem).symm
    · rw [hstep]
      refine List.pairwise_cons.mpr ⟨fun a ha => ?_, ihpair⟩
      have hamem : a ∈ (x :: xs).erase j := ihperm.mem_iff.mp ha
      obtain ⟨hane, hamem2⟩ := hnodup.mem_erase_iff.mp hamem
      have hap : a.status = JobStatus.pending := hall a hamem2
      have hkeyne : j.priority ≠ a.priority ∨ j.createdAt ≠ a.createdAt := by
        have hsym : Symmetric (fun a b : Job =>
            a.priority ≠ b.priority ∨ a.createdAt ≠ b.createdAt) := by
          intro u v huv
          rcases huv with h | h
          · exact Or.inl (Ne.symm h)
          · exact Or.inr (Ne.symm h)
        exact hdist.forall hsym hjmem hamem2 (Ne.symm hane)
      have hnab : ¬ jobBetter a j := hjmax a hamem2 hap
      rcases jobBetter_total_of_key_ne hkeyne with h | h
      · exact h
      · exact absurd h hnab

theorem drainOrder_sorted (jobs : List Job)
    (hall : ∀ j ∈ jobs, j.status = JobStatus.pending)
    (hdist : List.Pairwise
      (fun a b => a.priority ≠ b.priority ∨ a.createdAt ≠ b.createdAt) jobs) :
    (drainOrder jobs).Perm jobs ∧ List.Pairwise jobBetter (drainOrder jobs) :=
  drainAux_sorted jobs.length jobs rfl hall hdist

/-- Claim C5: the dispatch step always selects the pending job that is
maximal in the order `priority DESC, created_at ASC` (no other pending job
sorts strictly before it), and given pending jobs with pairwise-distinct
(priority, created_at) keys, repeated dispatch drains them in the strict
lexicographic order `(-priority, +created_at)` (the drain sequence is a
permutation of the jobs that is strictly sorted by `jobBetter`). -/
theorem scheduler_priority_order :
    (∀ (jobs : List Job) (j : Job), selectTopPending jobs = some j →
      j ∈ jobs ∧ j.status = JobStatus.pending ∧
        ∀ k ∈ jobs, k.status = JobStatus.pending → ¬ jobBetter k j) ∧
    (∀ jobs : List Job, (∀ j ∈ jobs, j.status = JobStatus.pending) →
      List.Pairwise
        (fun a b => a.priority ≠ b.priority ∨ a.createdAt ≠ b.createdAt) jobs →
      (drainOrder jobs).Perm jobs ∧ List.Pairwise jobBetter (drainOrder jobs)) :=
  ⟨fun _ _ h => selectTopPending_spec h, fun jobs hall hdist => drainOrder_sorted jobs hall hdist⟩

/-- Witness for C5: with J1 (priority 0, older) and J2 (priority 10, newer)
both pending, the drain order is a sorted permutation of the queue. -/
theorem scheduler_priority_order_witness :
    (∀ j ∈ [e2eJob1, e2eJob2], j.status = JobStatus.pending) ∧
    ((drainOrder [e2eJob1, e2eJob2]).Perm [e2eJob1, e2eJob2] ∧
      List.Pairwise jobBetter (drainOrder [e2eJob1, e2eJob2])) :=
  ⟨by decide, scheduler_priority_order.2 _ (by decide) (by decide)⟩

/-- Claim C4: for every option record, `buildArgs` emits for each set option a
flag `--<kebab-case key>` followed by the value, except: a boolean `true`
emits the flag alone; a boolean `false` (or an unset option, which is absent
from the entry list) emits nothing; the `fast` array `[a, b]` serializes as
the single flag `--fast a b` while any other array flag serializes as
`--<flag> a --<flag> b`; and the two internal options `cudaDevice` and
`useMps` never produce CLI flags. Entries contribute independently and in
order (the append law). -/
theorem buildArgs_flag_serialization :
    (∀ xs ys, buildArgs (xs ++ ys) = buildArgs xs ++ buildArgs ys) ∧
    (∀ k, k ≠ "cudaDevice" → k ≠ "useMps" →
      buildArgs [(k, OptVal.vBool true)] = ["--" ++ toKebabCase k]) ∧
    (∀ k, buildArgs [(k, OptVal.vBool false)] = []) ∧
    (∀ a b : String, buildArgs [("fast", OptVal.vArr [a, b])] = ["--fast", a, b]) ∧
    (∀ k, ∀ a b : String, k ≠ "cudaDevice" → k ≠ "useMps" → toKebabCase k ≠ "fast" →
      buildArgs [(k, OptVal.vArr [a, b])] =
        ["--" ++ toKebabCase k, a, "--" ++ toKebabCase k, b]) ∧
    (∀ k v, k ≠ "cudaDevice" → k ≠ "useMps" →
      buildArgs [(k, OptVal.vStr v)] = ["--" ++ toKebabCase k, v]) ∧
    (∀ v, buildArgs [("cudaDevice", v)] = [] ∧ buildArgs [("useMps", v)] = []) := by
  refine ⟨buildArgs_append, ?_, ?_, ?_, ?_, ?_, ?_⟩
  · intro k h1 h2
    simp [buildArgs, emitArg, h1, h2]
  · intro k
    by_cases h : k = "cudaDevice" ∨ k = "useMps" <;> simp [buildArgs, emitArg, h]
  · intro a b
    have hfast : toKebabCase "fast" = "fast" := by decide
    have hne : ¬((("fast" : String) = "cudaDevice") ∨ (("fast" : String) = "useMps")) := by
      decide
    simp [buildArgs, emitArg, hne, hfast, List.isEmpty]
  · intro k a b h1 h2 h3
    simp [buildArgs, emitArg, h1, h2, h3]
  · intro k v h1 h2
    simp [buildArgs, emitArg, h1, h2]
  · intro v
    constructor <;> simp [buildArgs, emitArg]

/-- Witness for C4: concrete instantiations — `forceFp16: true` gives
`--force-fp16`, `cudaMalloc: false` gives nothing, `fast: [a, b]` gives one
flag, `extraModelPathsConfig: [p, q]` repeats its flag, and `cudaDevice`
never surfaces. -/
theorem buildArgs_flag_serialization_witness :
    buildArgs [("forceFp16", OptVal.vBool true)] = ["--force-fp16"] ∧
    buildArgs [("cudaMalloc", OptVal.vBool false)] = [] ∧
    buildArgs [("fast", OptVal.vArr ["fp16_accumulation", "fp8_matrix_mult"])] =
      ["--fast", "fp16_accumulation", "fp8_matrix_mult"] ∧
    buildArgs [("extraModelPathsConfig", OptVal.vArr ["a.yaml", "b.yaml"])] =
      ["--extra-model-paths-config", "a.yaml", "--extra-model-paths-config", "b.yaml"] ∧
    buildArgs [("cudaDevice", OptVal.vStr "1")] = [] := by
  obtain ⟨-, htrue, hfalse, hfast, harr, -, hint⟩ := buildArgs_flag_serialization
  refine ⟨?_, hfalse _, hfast _ _, ?_, (hint _).1⟩
  · have h := htrue "forceFp16" (by decide) (by decide)
    rw [h]
    decide
  · have h := harr "extraModelPathsConfig" "a.yaml" "b.yaml" (by decide) (by decide) (by decide)
    rw [h]
    decide

/-! ### Dispatch outcome (C1) and the cancel and launch evaluations -/

theorem filter_id_eq_singleton {jobs : List Job} {j : Job}
    (hdist : List.Pairwise (fun a b => a.id ≠ b.id) jobs) (hmem : j ∈ jobs) :
    jobs.filter (fun x => x.id == j.id) = [j] := by
  induction jobs with
  | nil => cases hmem
  | cons x xs ih =>
    have hhead := (List.pairwise_cons.mp hdist).1
    have htail := (List.pairwise_cons.mp hdist).2
    rcases List.mem_cons.mp hmem with rfl | hmem2
    · have hnone : xs.filter (fun x => x.id == j.id) = [] := by
        refine List.filter_eq_nil_iff.mpr (fun a ha => ?_)
        simp only [beq_iff_eq]
        exact fun h => hhead a ha h.symm
      simp [List.filter_cons, hnone]
    · have hx : (x.id == j.id) = false := by
        simp only [beq_eq_false_iff_ne]
        exact hhead j hmem2
      simp [List.filter_cons, hx, ih htail hmem2]

theorem updateJob_filter (jobs : List Job) (id : String) (f : Job → Job)
    (hf : ∀ j, (f j).id = j.id) :
    (updateJob jobs id f).filter (fun x => x.id == id) =
      (jobs.filter (fun x => x.id == id)).map f := by
  unfold updateJob
  rw [List.filter_map]
  have h1 : ∀ j ∈ jobs,
      ((fun x => x.id == id) ∘ fun j => if j.id == id then f j else j) j = (j.id == id) := by
    intro j _
    by_cases hj : (j.id == id) = true
    · show ((if j.id == id then f j else j).id == id) = (j.id == id)
      rw [if_pos hj, hf j]
    · show ((if j.id == id then f j else j).id == id) = (j.id == id)
      rw [if_neg hj]
  rw [List.filter_congr h1]
  apply List.map_congr_left
  intro a ha
  have hmem := (List.mem_filter.mp ha).2
  show (if a.id == id then f a else a) = f a
  rw [if_pos hmem]

/-- Claim C1 as amended: with an idle running worker available and a top
pending job selected, a successful (2xx) submission leaves the job in status
`running` bound to the worker — nothing is stored in `output`, no terminal
status is written, and no further dispatch is triggered — while a failed
submission marks the job `failed` with the error text and recursively calls
the scheduler again on the updated queue. -/
theorem scheduleNextJob_step (instances : List WorkerRow)
    (submit : Nat → String → Except String String) (fuel : Nat) (jobs : List Job)
    (inst : WorkerRow) (avail : List WorkerRow) (job : Job)
    (hav : availableInstances instances jobs = inst :: avail)
    (hsel : selectTopPending jobs = some job)
    (hdist : List.Pairwise (fun a b => a.id ≠ b.id) jobs) :
    (∀ r, submit inst.port job.workflowData = Except.ok r →
      (scheduleNextJob instances submit (fuel + 1) jobs).filter (fun x => x.id == job.id) =
        [{ job with status := JobStatus.running, instanceId := some inst.id }]) ∧
    (∀ e, submit inst.port job.workflowData = Except.error e →
      ∃ jobs2,
        jobs2.filter (fun x => x.id == job.id) =
          [{ job with status := JobStatus.failed, instanceId := some inst.id, error := some e }] ∧
        scheduleNextJob instances submit (fuel + 1) jobs =
          scheduleNextJob instances submit fuel jobs2) := by
  have hjmem : job ∈ jobs := (selectTopPending_spec hsel).1
  have hrunne : (instances.filter (fun i => i.status == WStatus.running)).isEmpty = false := by
    cases hemp : instances.filter (fun i => i.status == WStatus.running) with
    | nil =>
      simp only [availableInstances, hemp, List.filter_nil] at hav
      cases hav
    | cons a l => rfl
  have hbase : jobs.filter (fun x => x.id == job.id) = [job] :=
    filter_id_eq_singleton hdist hjmem
  have hrun1 : ∀ j : Job,
      (({ j with status := JobStatus.running, instanceId := some inst.id } : Job)).id = j.id :=
    fun _ => rfl
  constructor
  · intro r hok
    simp only [scheduleNextJob, hrunne, Bool.false_eq_true, if_false, hav, hsel, hok]
    rw [updateJob_filter jobs job.id
      (fun j => { j with status := JobStatus.running, instanceId := some inst.id }) hrun1, hbase]
    rfl
  · intro e herr
    refine ⟨updateJob
      (updateJob jobs job.id
        (fun j => { j with status := JobStatus.running, instanceId := some inst.id }))
      job.id (fun j => { j with status := JobStatus.failed, error := some e }), ?_, ?_⟩
    · rw [updateJob_filter _ job.id
        (fun j => { j with status := JobStatus.failed, error := some e }) (fun _ => rfl),
        updateJob_filter jobs job.id
          (fun j => { j with status := JobStatus.running, instanceId := some inst.id }) hrun1,
        hbase]
      rfl
    · simp only [scheduleNextJob, hrunne, Bool.false_eq_true, if_false, hav, hsel, herr]

/-- Witness for the amended C1: worker W idle, J1 pending, submission
succeeds — the job ends up `running` and bound to W. -/
theorem scheduleNextJob_step_witness :
    (scheduleNextJob [e2eWorker] (fun _ _ => Except.ok "ok") 2 [e2eJob1]).filter
        (fun x => x.id == e2eJob1.id) =
      [{ e2eJob1 with status := JobStatus.running, instanceId := some e2eWorker.id }] :=
  (scheduleNextJob_step [e2eWorker] (fun _ _ => Except.ok "ok") 1 [e2eJob1] e2eWorker []
    e2eJob1 (by decide) (by decide) (by decide)).1 "ok" rfl

/-- Counterexample to C1 as stated: with worker W running and pending job J1,
a submission answered with a 2xx response leaves the job in status `running`
with nothing stored in `output` — the code never marks it `completed` and
never stores the response body. -/
theorem scheduleNextJob_success_not_completed :
    (scheduleNextJob [e2eWorker] (fun _ _ => Except.ok "ok") 2 [e2eJob1]).map
        (fun j => (j.status, j.output)) = [(JobStatus.running, none)] ∧
    JobStatus.running ≠ JobStatus.completed := by
  decide

/-- Claim C2 evaluated on the code: cancelling the running job J9 bound to
worker W (port 8190) transitions the row to `cancelled`, and cancellation is
rejected from terminal statuses — but the interrupt POST is never issued,
because the route compares the post-update `RETURNING` status (already
`cancelled`) against `running`. -/
theorem cancelRunning_never_interrupts :
    (cancelJob [e2eRunningJob] [e2eWorker] "J9").2.2 = false ∧
    e2eRunningJob.status = JobStatus.running ∧
    e2eRunningJob.instanceId = some e2eWorker.id ∧
    e2eWorker.port ≠ 0 ∧
    ((cancelJob [e2eRunningJob] [e2eWorker] "J9").1.map (fun j => j.status)) =
      [JobStatus.cancelled] ∧
    (cancelJob [{ e2eRunningJob with status := JobStatus.completed }] [e2eWorker] "J9").2.1 =
      none ∧
    (cancelJob [{ e2eRunningJob with status := JobStatus.completed }] [e2eWorker] "J9").1 =
      [{ e2eRunningJob with status := JobStatus.completed }] := by
  decide

/-- Claim C3 evaluated on the code: a successful spawn captures the pid, but
`launchInstance` overwrites the worker's status to `running` before
returning — it does not stay `starting` until the first successful
readiness probe. -/
theorem launchInstance_running_at_return :
    (launchInstance "w1" launchOptsFix 4242 false).status = WStatus.running ∧
    (launchInstance "w1" launchOptsFix 4242 false).pid = some 4242 ∧
    WStatus.running ≠ WStatus.starting := by
  decide

/-! ### Readiness poll (C6) -/

theorem readyLoop_exhaust_alive (env : ReadyEnv) (inst : RInstance)
    (halive : ∀ t, env.processRunning t = true)
    (hapi : ∀ t, env.apiReady t = false)
    (hfatal : hasFatalErrors inst.errors = false)
    (hpid : inst.pid.isSome = true) :
    ∀ r a, readyLoop env inst a r = ((false, "starting"), inst) := by
  intro r
  induction r with
  | zero =>
    intro a
    simp [readyLoop, hpid, halive a]
  | succ n ih =>
    intro a
    simp [readyLoop, hpid, halive a, hapi a, hfatal, ih (a + 1)]

theorem readyLoop_exhaust_dead (env : ReadyEnv) (inst : RInstance)
    (hapi : ∀ t, env.apiReady t = false)
    (hfatal : hasFatalErrors inst.errors = false)
    (hpid : inst.pid.isSome = true) :
    ∀ r a, (∀ t, t < a + r → env.processRunning t = true) →
      env.processRunning (a + r) = false →
      readyLoop env inst a r =
        ((false, "error"), { inst with status := WStatus.error, lastError := some "Process exited or API never became ready" }) := by
  intro r
  induction r with
  | zero =>
    intro a _ hdead
    simp only [Nat.add_zero] at hdead
    simp [readyLoop, hpid, hdead]
  | succ n ih =>
    intro a halive hdead
    have ha : env.processRunning a = true := halive a (by omega)
    have hrec := ih (a + 1) (fun t ht => halive t (by omega))
      (by rw [show a + 1 + n = a + (n + 1) by omega]; exact hdead)
    simp [readyLoop, hpid, ha, hapi a, hfatal, hrec]

/-- Claim C6: the readiness poll runs for `attempts` iterations when a
nonzero count is given, else for `⌈startup_timeout / check_interval⌉`
(characterized as the least `m` with `startup_timeout ≤ check_interval·m`);
inside the loop a fatal substring in the errors buffer sets the status to
`error` and returns `{false, error}`; and after exhausting all attempts the
poll returns `{false, starting}` when the child is still alive and
`{false, error}` (with the status set to `error`) when it is not. -/
theorem readiness_poll_spec :
    (∀ n startupTimeout checkInterval, n ≠ 0 →
      effAttempts (some n) startupTimeout checkInterval = n) ∧
    (∀ startupTimeout checkInterval, 0 < checkInterval →
      startupTimeout ≤ checkInterval * effAttempts none startupTimeout checkInterval ∧
      ∀ m, startupTimeout ≤ checkInterval * m →
        effAttempts none startupTimeout checkInterval ≤ m) ∧
    (∀ (env : ReadyEnv) (inst : RInstance) (a r : Nat),
      (inst.pid.isSome && !(env.processRunning a)) = false →
      env.apiReady a = false →
      hasFatalErrors inst.errors = true →
      readyLoop env inst a (r + 1) =
        ((false, "error"), { inst with status := WStatus.error })) ∧
    (∀ (env : ReadyEnv) (inst : RInstance) (maxAttempts : Option Nat)
        (startupTimeout checkInterval : Nat),
      inst.status = WStatus.starting →
      (∀ t, env.processRunning t = true) →
      (∀ t, env.apiReady t = false) →
      hasFatalErrors inst.errors = false →
      inst.pid.isSome = true →
      isInstanceReadyModel (some inst) maxAttempts startupTimeout checkInterval env =
        ((false, "starting"), some inst)) ∧
    (∀ (env : ReadyEnv) (inst : RInstance),
      (∀ t, env.apiReady t = false) →
      hasFatalErrors inst.errors = false →
      inst.pid.isSome = true →
      ∀ r a, (∀ t, t < a + r → env.processRunning t = true) →
        env.processRunning (a + r) = false →
        readyLoop env inst a r =
          ((false, "error"), { inst with status := WStatus.error, lastError := some "Process exited or API never became ready" })) := by
  refine ⟨?_, ?_, ?_, ?_, ?_⟩
  · intro n st ci hn
    simp [effAttempts, hn]
  · intro st ci hci
    constructor
    · have h1 := Nat.div_add_mod (st + ci - 1) ci
      have h2 := Nat.mod_lt (st + ci - 1) hci
      simp only [effAttempts]
      omega
    · intro m hm
      simp only [effAttempts]
      rw [Nat.div_le_iff_le_mul_add_pred hci]
      omega
  · intro env inst a r hproc hapi hfatal
    simp [readyLoop, hproc, hapi, hfatal]
  · intro env inst ma st ci hstatus halive hapi hfatal hpid
    have hloop := readyLoop_exhaust_alive env inst halive hapi hfatal hpid
      (effAttempts ma st ci) 0
    simp [isInstanceReadyModel, hstatus, hloop]
  · exact fun env inst hapi hfatal hpid =>
      readyLoop_exhaust_dead env inst hapi hfatal hpid

/-- Witness for C6: a starting instance with a live child whose API never
answers within two attempts yields `{false, starting}`, and the given
attempt count 2 is used verbatim. -/
theorem readiness_poll_spec_witness :
    effAttempts (some 2) 120000 3000 = 2 ∧
    isInstanceReadyModel (some readyFixInst) (some 2) 120000 3000
        { processRunning := fun _ => true, apiReady := fun _ => false } =
      ((false, "starting"), some readyFixInst) ∧
    readyLoop { processRunning := fun _ => true, apiReady := fun _ => false }
        { readyFixInst with errors := ["ModuleNotFoundError: comfy"] } 0 3 =
      ((false, "error"),
        { { readyFixInst with errors := ["ModuleNotFoundError: comfy"] } with status := WStatus.error }) :=
  ⟨readiness_poll_spec.1 2 120000 3000 (by decide),
    readiness_poll_spec.2.2.2.1
      { processRunning := fun _ => true, apiReady := fun _ => false }
      readyFixInst (some 2) 120000 3000 rfl (fun _ => rfl) (fun _ => rfl) (by decide) rfl,
    readiness_poll_spec.2.2.1
      { processRunning := fun _ => true, apiReady := fun _ => false }
      { readyFixInst with errors := ["ModuleNotFoundError: comfy"] } 0 2
      (by decide) rfl (by decide)⟩

/-! ### Port allocator (C7) -/

theorem findAvailAux_finds (avail : Nat → Bool) :
    ∀ (fuel base : Nat), (∃ q, base ≤ q ∧ q < base + fuel ∧ avail q = true) →
      ∃ p, findAvailAux avail fuel base = some p ∧ base ≤ p ∧ avail p = true ∧
        ∀ r, base ≤ r → r < p → avail r = false := by
  intro fuel
  induction fuel with
  | zero =>
    rintro base ⟨q, h1, h2, -⟩
    omega
  | succ n ih =>
    rintro base ⟨q, hq1, hq2, hq3⟩
    cases hb : avail base with
    | true =>
      refine ⟨base, ?_, le_refl _, hb, fun r hr1 hr2 => absurd hr1 (by omega)⟩
      simp [findAvailAux, hb]
    | false =>
      have hqb : q ≠ base := fun h => by rw [h, hb] at hq3; cases hq3
      obtain ⟨p, hp1, hp2, hp3, hp4⟩ := ih (base + 1) ⟨q, by omega, by omega, hq3⟩
      refine ⟨p, ?_, by omega, hp3, fun r hr1 hr2 => ?_⟩
      · simp [findAvailAux, hb, hp1]
      · rcases Nat.eq_or_lt_of_le hr1 with rfl | hlt
        · exact hb
        · exact hp4 r (by omega) hr2

/-- Claim C7: for any base port at most 65534, provided some port in
[base, 65535] binds, the probe loop terminates within 65536 − base
iterations and returns the first port at or above the base that binds —
every port in [base, p) having failed to bind. -/
theorem findAvailablePort_first_fit (avail : Nat → Bool) (base : Nat)
    (hbase : base ≤ 65534)
    (hex : ∃ q, base ≤ q ∧ q ≤ 65535 ∧ avail q = true) :
    ∃ p, findAvailAux avail (65536 - base) base = some p ∧ base ≤ p ∧ avail p = true ∧
      ∀ r, base ≤ r → r < p → avail r = false := by
  obtain ⟨q, h1, h2, h3⟩ := hex
  exact findAvailAux_finds avail (65536 - base) base ⟨q, h1, by omega, h3⟩

/-- Witness for C7: with ports below 8190 busy and 8190 free, probing from
base 8188 succeeds. -/
theorem findAvailablePort_first_fit_witness :
    ∃ p, findAvailAux (fun x => decide (8190 ≤ x)) (65536 - 8188) 8188 = some p ∧
      8188 ≤ p ∧ decide (8190 ≤ p) = true ∧
      ∀ r, 8188 ≤ r → r < p → decide (8190 ≤ r) = false :=
  findAvailablePort_first_fit (fun x => decide (8190 ≤ x)) 8188 (by decide)
    ⟨8190, by decide, by decide, by decide⟩

/-! ### Metric attribution (C8) -/

/-- Claim C8: one sampler tick appends, for a running worker with device
selector `"0,1"` and an inventory containing devices 0 and 1, exactly the
two rows for GPU 0 and GPU 1, each carrying the tick's host CPU and RAM;
non-integer selector tokens such as `cpu`/`mps` parse to `NaN` and yield no
rows; and a tick with no running workers appends nothing. -/
theorem metric_attribution :
    (∀ (inst : InstanceRow) (gms : List GPUMetric) (sys : SysMetrics) (d0 d1 : GPUMetric),
      inst.status = WStatus.running →
      inst.gpuIndices = "0,1" →
      gms.find? (fun m => m.index == (0 : Int)) = some d0 →
      gms.find? (fun m => m.index == (1 : Int)) = some d1 →
      recordMetricsRows [inst] gms sys =
        [{ instanceId := inst.id, gpuIndex := 0, vramUsed := d0.memoryUsed, vramTotal := d0.memoryTotal, gpuUtilization := d0.utilization, ramUsed := sys.ramUsed, cpuUtilization := sys.cpuUtilization },
         { instanceId := inst.id, gpuIndex := 1, vramUsed := d1.memoryUsed, vramTotal := d1.memoryTotal, gpuUtilization := d1.utilization, ramUsed := sys.ramUsed, cpuUtilization := sys.cpuUtilization }]) ∧
    parseIntJS "cpu" = none ∧
    parseIntJS "mps" = none ∧
    (∀ (inst : InstanceRow) (gms : List GPUMetric) (sys : SysMetrics),
      inst.status = WStatus.running →
      (inst.gpuIndices = "cpu" ∨ inst.gpuIndices = "mps") →
      recordMetricsRows [inst] gms sys = []) ∧
    (∀ (instances : List InstanceRow) (gms : List GPUMetric) (sys : SysMetrics),
      (∀ i ∈ instances, i.status ≠ WStatus.running) →
      recordMetricsRows instances gms sys = []) := by
  have hsplit01 : (splitComma "0,1").map (fun t => parseIntJS (trimStr t)) =
      [some (0 : Int), some (1 : Int)] := by decide
  have hsplitcpu : (splitComma "cpu").map (fun t => parseIntJS (trimStr t)) = [none] := by
    decide
  have hsplitmps : (splitComma "mps").map (fun t => parseIntJS (trimStr t)) = [none] := by
    decide
  refine ⟨?_, by decide, by decide, ?_, ?_⟩
  · intro inst gms sys d0 d1 hst hgi hf0 hf1
    simp [recordMetricsRows, hst, hgi, hsplit01, hf0, hf1]
  · intro inst gms sys hst hgi
    rcases hgi with hgi | hgi <;>
      simp [recordMetricsRows, hst, hgi, hsplitcpu, hsplitmps]
  · intro instances gms sys hnone
    have hfe : instances.filter (fun i => i.status == WStatus.running) = [] := by
      refine List.filter_eq_nil_iff.mpr (fun a ha => ?_)
      simp only [beq_iff_eq]
      exact hnone a ha
    simp [recordMetricsRows, hfe]

/-- Witness for C8: the E2E-6 scenario evaluated — worker W with selector
`0,1`, stubbed devices 0 and 1, one tick, two rows. -/
theorem metric_attribution_witness :
    recordMetricsRows [metricFixInst] [gpuFix0, gpuFix1] sysFix =
      [{ instanceId := metricFixInst.id, gpuIndex := 0, vramUsed := gpuFix0.memoryUsed, vramTotal := gpuFix0.memoryTotal, gpuUtilization := gpuFix0.utilization, ramUsed := sysFix.ramUsed, cpuUtilization := sysFix.cpuUtilization },
       { instanceId := metricFixInst.id, gpuIndex := 1, vramUsed := gpuFix1.memoryUsed, vramTotal := gpuFix1.memoryTotal, gpuUtilization := gpuFix1.utilization, ramUsed := sysFix.ramUsed, cpuUtilization := sysFix.cpuUtilization }] :=
  metric_attribution.1 metricFixInst [gpuFix0, gpuFix1] sysFix gpuFix0 gpuFix1
    rfl rfl (by decide) (by decide)

/-! ### Runtime locator cache (C9) -/

theorem lookupCache_cons_self (c : List (String × String)) (p x : String) :
    lookupCache ((p, x) :: c) p = some x := by
  simp [lookupCache, List.find?]

theorem getPythonPath_cached (env : LocEnv) (st : LocSt) (p v : String)
    (h : lookupCache st.cache p = some v) :
    getPythonPathM env st p = (v, st) := by
  unfold getPythonPathM
  rw [h]

theorem getPythonPath_result_cached (env : LocEnv) (st : LocSt) (p : String) :
    lookupCache (getPythonPathM env st p).2.cache p = some (getPythonPathM env st p).1 ∧
    (getPythonPathM env st p).2.scanCount ≤ st.scanCount + 1 := by
  unfold getPythonPathM
  cases hc : lookupCache st.cache p with
  | some v => simp [hc]
  | none =>
    cases hdb : st.dbPath with
    | some dv =>
      by_cases hval : dv ≠ "" ∧ env.validate dv = true
      · simp [hc, hdb, hval, lookupCache_cons_self]
      · cases hvs : env.venvScan with
        | some vp =>
          cases hv2 : env.validate vp with
          | true => simp [hc, hdb, hval, hvs, hv2, lookupCache_cons_self]
          | false => simp [hc, hdb, hval, hvs, hv2, lookupCache_cons_self]
        | none => simp [hc, hdb, hval, hvs, lookupCache_cons_self]
    | none =>
      cases hvs : env.venvScan with
      | some vp =>
        cases hv2 : env.validate vp with
        | true => simp [hc, hdb, hvs, hv2, lookupCache_cons_self]
        | false => simp [hc, hdb, hvs, hv2, lookupCache_cons_self]
      | none => simp [hc, hdb, hvs, lookupCache_cons_self]

/-- Claim C9: two consecutive `getPythonPath` calls with the same install
path scan the disk at most once — the first call performs at most one scan
and caches its resolution under the install path, and the second call
returns the cached path with the state (and hence the scan and config-read
counters) entirely unchanged. -/
theorem locator_cache_single_scan (env : LocEnv) (st : LocSt) (p : String) :
    getPythonPathM env (getPythonPathM env st p).2 p =
      ((getPythonPathM env st p).1, (getPythonPathM env st p).2) ∧
    (getPythonPathM env st p).2.scanCount ≤ st.scanCount + 1 := by
  obtain ⟨h1, h2⟩ := getPythonPath_result_cached env st p
  exact ⟨getPythonPath_cached env _ p _ h1, h2⟩

/-! ### Missing-id accessors (C10) -/

/-- Claim C10: for a worker id absent from the in-memory instance map, the
log, error and warning accessors return the empty list, the readiness poll
returns `{ready := false, status := "not_found"}`, and stop returns
`false` — no accessor raises. -/
theorem missing_instance_benign (m : List (String × RInstance)) (id : String)
    (h : instancesFind m id = none) :
    getInstanceErrors m id = [] ∧
    getInstanceWarnings m id = [] ∧
    (∀ limit, getInstanceLogs m id limit = []) ∧
    (∀ ma st ci env, isInstanceReadyById m id ma st ci env = ((false, "not_found"), none)) ∧
    (∀ env, stopInstanceById m id env = (false, none)) := by
  refine ⟨?_, ?_, ?_, ?_, ?_⟩ <;>
    simp [getInstanceErrors, getInstanceWarnings, getInstanceLogs,
      isInstanceReadyById, isInstanceReadyModel, stopInstanceById, stopInstance, h]

/-- Witness for C10: the empty instance map and the id `ghost`. -/
theorem missing_instance_benign_witness :
    instancesFind [] "ghost" = none ∧
    getInstanceErrors [] "ghost" = [] ∧
    getInstanceWarnings [] "ghost" = [] ∧
    getInstanceLogs [] "ghost" 50 = [] ∧
    isInstanceReadyById [] "ghost" (some 1) 120000 3000
        { processRunning := fun _ => true, apiReady := fun _ => true } =
      ((false, "not_found"), none) ∧
    stopInstanceById [] "ghost" { termThrows := false, aliveAfterTerm := fun _ => false } =
      (false, none) := by
  have h := missing_instance_benign [] "ghost" rfl
  exact ⟨rfl, h.1, h.2.1, h.2.2.1 50, h.2.2.2.1 (some 1) 120000 3000 _, h.2.2.2.2 _⟩

end Sutora
